import Mathlib

/-!
Verification of the nmap-based Ansible inventory pipeline
(`ExtendingAnsibleWithPython/Inventories`).

The embedding models the XML report shape consumed by
`OutputParser.get_addresses`, the `NmapRunner` constructor/iterator, and the
`get_list` inventory builder, directly from the Python source.
-/

/-- One `<hostname>` record: its `name` attribute. -/
structure HostnameRec where
  name : String
deriving DecidableEq, Repr

/-- One `<hostnames>` container element; the parser iterates its children. -/
structure HostnamesBlock where
  children : List HostnameRec
deriving DecidableEq, Repr

/-- One `<status>` record: its `state` attribute (`"up"` / `"down"`). -/
structure StatusRec where
  state : String
deriving DecidableEq, Repr

/-- One `<state>` record nested under a port: its `state` attribute. -/
structure PortStateRec where
  state : String
deriving DecidableEq, Repr

/-- One `<port>` record: `portid` attribute and nested `<state>` records. -/
structure PortRec where
  portid : String
  states : List PortStateRec
deriving DecidableEq, Repr

/-- One `<ports>` container element holding `<port>` records. -/
structure PortsBlock where
  ports : List PortRec
deriving DecidableEq, Repr

/-- One `<address>` record: its `addr` attribute. -/
structure AddressRec where
  addr : String
deriving DecidableEq, Repr

/-- One `<host>` element, with the four child collections the parser reads
via `findall('hostnames')`, `findall('status')`, `findall('ports')`,
`findall('address')`. -/
structure HostElem where
  hostnames : List HostnamesBlock
  status : List StatusRec
  ports : List PortsBlock
  address : List AddressRec
deriving DecidableEq, Repr

/-- A parsed report document: the root element's `<host>` children. -/
structure ReportDoc where
  hosts : List HostElem
deriving DecidableEq, Repr

/-- The hostname-selection loop of `OutputParser.get_addresses`
(plugins/inventory/nmap_plugin.py:82-85): `name` starts as `None`; for each
`<hostnames>` block the inner loop overwrites `name` with the block's first
child and then breaks out of the inner loop only. -/
def pickName (h : HostElem) : Option String :=
  h.hostnames.foldl
    (fun acc block =>
      match block.children with
      | [] => acc
      | hn :: _ => some hn.name)
    none

/-- The liveness loop (nmap_plugin.py:89-93): `is_up` starts `True` and
becomes `False` as soon as any status record has state `"down"`. -/
def isUp (h : HostElem) : Bool :=
  ! h.status.any (fun s => s.state == "down")

/-- The port scan loop (nmap_plugin.py:96-103): the flag is set once any
port record with portid `"22"` contains a state record `"open"`, and is
never reset. -/
def port22Open (h : HostElem) : Bool :=
  h.ports.any (fun pb =>
    pb.ports.any (fun p =>
      p.portid == "22" && p.states.any (fun st => st.state == "open")))

/-- The address loop (nmap_plugin.py:106-109): take the first `<address>`
record, `None` if there is none. -/
def firstAddr (h : HostElem) : Option String :=
  match h.address with
  | [] => none
  | a :: _ => some a.addr

/-- One iteration of the host loop of the canonical
`OutputParser.get_addresses` (plugins/inventory/nmap_plugin.py:81-110):
`none` when the host is skipped (`continue`), otherwise the
`{name: address}` record appended for it. -/
def hostRecord (h : HostElem) : Option (String × Option String) :=
  match pickName h with
  | none => none
  | some n =>
    if n = "" then none
    else if ! isUp h then none
    else if ! port22Open h then none
    else some (n, firstAddr h)

/-- The canonical `OutputParser.get_addresses`
(plugins/inventory/nmap_plugin.py:79-111) applied to an already-parsed
document: the records appended per host, in document order. -/
def get_addresses (d : ReportDoc) : List (String × Option String) :=
  d.hosts.filterMap hostRecord

/-- The per-host contribution of the address-only variant
(inventories/nmap.py:22-48): a live host with port 22 open contributes all
its address records, other hosts contribute nothing. -/
def hostAddrs (h : HostElem) : List String :=
  if ! isUp h then []
  else if ! port22Open h then []
  else h.address.map (fun a => a.addr)

/-- `OutputParser.get_addresses` of inventories/nmap.py:22-48: the
accumulating loop over hosts, appending each eligible host's addresses. -/
def get_addresses_ip (d : ReportDoc) : List String :=
  d.hosts.foldl (fun acc h => acc ++ hostAddrs h) []

/-- All hostname records of a host in document order (specification-level
notion used to compare against the code's choice). -/
def allHostnames (h : HostElem) : List String :=
  (h.hostnames.map (fun b => b.children.map (fun hn => hn.name))).flatten

/-- The fixed flag vector of the canonical plugin
(plugins/inventory/nmap_plugin.py:148-163): `shlex.split` of the joined
keys of `NMAP_DEFAULT_FLAGS`. -/
def nmapFlags : List String :=
  ["-p22", "-T4", "-PE", "--disable-arp-ping", "--max-hostgroup", "50",
   "--min-parallelism", "50", "--osscan-limit", "--max-os-tries", "1",
   "-oX", "-"]

/-- The state a successfully constructed `NmapRunner` carries: the resolved
scanner path and the target string. -/
structure NmapRunner where
  nmap : String
  hosts : String
deriving DecidableEq, Repr

/-- The errors the runner pipeline can surface: the `ValueError` of
`NmapRunner.__init__` when the binary is missing, the
`CalledProcessError` of `subprocess.run(check=True)` carrying the command
and captured stderr, and the `ElementTree.ParseError` of
`OutputParser.get_addresses`. -/
inductive RunnerError where
  | toolNotFound (msg : String)
  | scanFailed (cmd : List String) (diagnostic : String)
  | parseError (msg : String)
deriving DecidableEq, Repr

/-- `NmapRunner.__init__` (plugins/inventory/nmap_plugin.py:116-122): the
result of `shutil.which('nmap', ...)` is passed in; `None` raises
`ValueError("Nmap binary is missing!")` before anything else happens. -/
def runnerInit (which : Option String) (hosts : String) :
    Except RunnerError NmapRunner :=
  match which with
  | none => Except.error (RunnerError.toolNotFound "Nmap binary is missing!")
  | some path => Except.ok { nmap := path, hosts := hosts }

/-- The outcome of one `subprocess.run` call: exit status, captured
standard output (already decoded) and captured standard error. -/
structure ProcResult where
  returncode : Int
  stdout : String
  stderr : String

/-- The argument vector built by `NmapRunner.__iter__`
(plugins/inventory/nmap_plugin.py:125-127): executable, fixed flags, then
the target as the final argument. -/
def buildCommand (r : NmapRunner) : List String :=
  [r.nmap] ++ nmapFlags ++ [r.hosts]

/-- `NmapRunner.__iter__` (plugins/inventory/nmap_plugin.py:124-137)
composed with `OutputParser.get_addresses`: run the subprocess on the built
command; `check=True` turns a non-zero exit into a `CalledProcessError`
carrying the command and captured stderr; on exit 0 the decoded stdout is
handed to the XML parser (`fromstring`, the `ElementTree` library call,
passed as a parameter) and the parsed document is filtered into records. -/
def runnerIter (r : NmapRunner) (runProc : List String → ProcResult)
    (fromstring : String → Except String ReportDoc) :
    Except RunnerError (List (String × Option String)) :=
  let cmd := buildCommand r
  let res := runProc cmd
  if res.returncode = 0 then
    match fromstring res.stdout with
    | Except.error e => Except.error (RunnerError.parseError e)
    | Except.ok root => Except.ok (get_addresses root)
  else Except.error (RunnerError.scanFailed cmd res.stderr)

/-- The whole `list(NmapRunner(target))` flow: construct the runner, then
iterate. The first component records every command handed to
`subprocess.run`, so "no subprocess was spawned" is `[]` there. -/
def scanPipeline (which : Option String) (hosts : String)
    (runProc : List String → ProcResult)
    (fromstring : String → Except String ReportDoc) :
    List (List String) × Except RunnerError (List (String × Option String)) :=
  match runnerInit which hosts with
  | Except.error e => ([], Except.error e)
  | Except.ok r => ([buildCommand r], runnerIter r runProc fromstring)

/-- `OutputParser.get_addresses` on raw text
(plugins/inventory/nmap_plugin.py:79-81): `ElementTree.fromstring` runs
first; a malformed document raises before any host is visited, so no
record is ever produced for such input. -/
def get_addresses_raw (fromstring : String → Except String ReportDoc)
    (xml : String) : Except String (List (String × Option String)) :=
  match fromstring xml with
  | Except.error e => Except.error e
  | Except.ok root => Except.ok (get_addresses root)

/-- The inventory structure built by `get_list`
(scripts/nmap_inventory.py:30-39): the `hostvars` mapping (as an
insertion-ordered association list, matching dict insertion order) and the
`ungrouped` host list. -/
structure InventoryData where
  hostvars : List (String × List (Option String))
  ungrouped : List String
deriving DecidableEq, Repr

/-- The two dict operations of the `get_list` loop body on `hostvars`:
`if name not in hostvars: hostvars[name] = {'ip': []}` followed by
`hostvars[name]['ip'].append(address)`. A missing key is inserted at the
end (dict insertion order); an existing key gets the address appended. -/
def addAddr : List (String × List (Option String)) → String → Option String →
    List (String × List (Option String))
  | [], name, a => [(name, [a])]
  | (n, ips) :: rest, name, a =>
      if n = name then (n, ips ++ [a]) :: rest
      else (n, ips) :: addAddr rest name a

/-- `if name not in ungrouped: ungrouped.append(name)`
(scripts/nmap_inventory.py:35-36). -/
def addUngrouped (ug : List String) (name : String) : List String :=
  if name ∈ ug then ug else ug ++ [name]

/-- One iteration of the `get_list` accumulation loop
(scripts/nmap_inventory.py:33-39). -/
def invStep (inv : InventoryData) (r : String × Option String) :
    InventoryData :=
  { hostvars := addAddr inv.hostvars r.1 r.2,
    ungrouped := addUngrouped inv.ungrouped r.1 }

/-- The aggregation loop of `get_list` (scripts/nmap_inventory.py:30-39)
over the sequence of parsed `{name: address}` records. -/
def get_list (records : List (String × Option String)) : InventoryData :=
  records.foldl invStep { hostvars := [], ungrouped := [] }

/-- Python `dict` lookup on the association-list model of `hostvars`. -/
def lookupIp : List (String × List (Option String)) → String →
    Option (List (Option String))
  | [], _ => none
  | (n, ips) :: rest, name => if n = name then some ips else lookupIp rest name

/-- `NmapRunner.__next__` (plugins/inventory/nmap_plugin.py:139-143):
`self.addresses.pop()` removes and returns the LAST element; an empty list
raises `StopIteration` (`none`). -/
def popLast {α : Type} : List α → Option (α × List α)
  | [] => none
  | [a] => some (a, [])
  | a :: b :: rest =>
      match popLast (b :: rest) with
      | none => none
      | some (x, st) => some (x, a :: st)

/-- Repeatedly call `__next__` until `StopIteration`, with fuel; returns
the yielded elements in order together with the final iterator state. -/
def drainAux {α : Type} : Nat → List α → List α × List α
  | 0, st => ([], st)
  | Nat.succ fuel, st =>
      match popLast st with
      | none => ([], st)
      | some (x, st2) =>
          let rest := drainAux fuel st2
          (x :: rest.1, rest.2)

/-- `list(runner)`: drain the iterator completely (the fuel `st.length`
always suffices, as the theorems show). -/
def drainIter {α : Type} (st : List α) : List α × List α :=
  drainAux st.length st


/-! ### Helper lemmas about the parser -/

theorem isUp_eq_false_iff (h : HostElem) :
    isUp h = false ↔ ∃ s, s ∈ h.status ∧ s.state = "down" := by
  simp [isUp, List.any_eq_true]

theorem port22Open_eq_true_iff (h : HostElem) :
    port22Open h = true ↔
      ∃ pb, pb ∈ h.ports ∧ ∃ p, p ∈ pb.ports ∧ p.portid = "22" ∧
        ∃ st, st ∈ p.states ∧ st.state = "open" := by
  simp [port22Open, List.any_eq_true, and_assoc]

theorem hostRecord_eq_none_of_not_up (h : HostElem) (hup : isUp h = false) :
    hostRecord h = none := by
  unfold hostRecord
  cases hn : pickName h with
  | none => rfl
  | some n =>
    simp only [hup]
    by_cases he : n = "" <;> simp [he]

theorem hostRecord_eq_none_of_port (h : HostElem)
    (hp : port22Open h = false) : hostRecord h = none := by
  unfold hostRecord
  cases hn : pickName h with
  | none => rfl
  | some n =>
    simp only [hp]
    by_cases he : n = "" <;> by_cases hu : isUp h <;> simp [he, hu]

theorem get_addresses_append (hs1 hs2 : List HostElem) :
    get_addresses ⟨hs1 ++ hs2⟩ = get_addresses ⟨hs1⟩ ++ get_addresses ⟨hs2⟩ := by
  simp [get_addresses, List.filterMap_append]

theorem get_addresses_removal (pre post : List HostElem) (h : HostElem)
    (hnone : hostRecord h = none) :
    get_addresses ⟨pre ++ h :: post⟩ = get_addresses ⟨pre ++ post⟩ := by
  simp [get_addresses, List.filterMap_append, List.filterMap_cons, hnone]

theorem get_addresses_ip_foldl (hs : List HostElem) (acc : List String) :
    hs.foldl (fun acc h => acc ++ hostAddrs h) acc
      = acc ++ (hs.map hostAddrs).flatten := by
  induction hs generalizing acc with
  | nil => simp
  | cons h hs ih => simp [List.foldl_cons, ih, List.append_assoc]

theorem get_addresses_ip_eq (d : ReportDoc) :
    get_addresses_ip d = (d.hosts.map hostAddrs).flatten := by
  simpa [get_addresses_ip] using get_addresses_ip_foldl d.hosts []

theorem hostAddrs_eq_nil_of_not_up (h : HostElem) (hup : isUp h = false) :
    hostAddrs h = [] := by
  simp [hostAddrs, hup]

theorem get_addresses_ip_removal (pre post : List HostElem) (h : HostElem)
    (hnil : hostAddrs h = []) :
    get_addresses_ip ⟨pre ++ h :: post⟩ = get_addresses_ip ⟨pre ++ post⟩ := by
  simp [get_addresses_ip_eq, hnil]

theorem hostAddrs_eq_nil_of_port (h : HostElem) (hp : port22Open h = false) :
    hostAddrs h = [] := by
  by_cases hu : isUp h <;> simp [hostAddrs, hu, hp]

theorem hostRecord_eq_none_of_noname (h : HostElem) (hn : pickName h = none) :
    hostRecord h = none := by
  unfold hostRecord
  rw [hn]

/-! ### Sample hosts used by witnesses -/

/-- A fully eligible host: up, port 22 open, named, with one address. -/
def exHostUp : HostElem :=
  { hostnames := [⟨[⟨"alpha"⟩]⟩],
    status := [⟨"up"⟩],
    ports := [⟨[⟨"22", [⟨"open"⟩]⟩]⟩],
    address := [⟨"192.168.1.10"⟩] }

/-- A host that is down but otherwise eligible. -/
def exHostDown : HostElem :=
  { hostnames := [⟨[⟨"bravo"⟩]⟩],
    status := [⟨"down"⟩],
    ports := [⟨[⟨"22", [⟨"open"⟩]⟩]⟩],
    address := [⟨"192.168.1.11"⟩] }

/-- A live, named host whose port 22 is present but closed. -/
def exHostClosed : HostElem :=
  { hostnames := [⟨[⟨"charlie"⟩]⟩],
    status := [⟨"up"⟩],
    ports := [⟨[⟨"22", [⟨"closed"⟩]⟩]⟩],
    address := [⟨"192.168.1.12"⟩] }

/-- Claim C1: for every report document and every host entry in it, if any
of that host's status records has state "down", then
`OutputParser.get_addresses` emits no record for that host, regardless of
the host's port records or address records — in both the canonical
(dict-record) parser and the address-only variant. -/
theorem claim_C1_down_host_not_emitted (pre post : List HostElem)
    (h : HostElem) (hdown : ∃ s, s ∈ h.status ∧ s.state = "down") :
    get_addresses ⟨pre ++ h :: post⟩ = get_addresses ⟨pre ++ post⟩ ∧
    get_addresses_ip ⟨pre ++ h :: post⟩ = get_addresses_ip ⟨pre ++ post⟩ := by
  have hup : isUp h = false := (isUp_eq_false_iff h).mpr hdown
  exact ⟨get_addresses_removal pre post h (hostRecord_eq_none_of_not_up h hup),
         get_addresses_ip_removal pre post h (hostAddrs_eq_nil_of_not_up h hup)⟩

theorem claim_C1_witness :
    (∃ s, s ∈ exHostDown.status ∧ s.state = "down") ∧
    get_addresses ⟨[exHostUp] ++ exHostDown :: []⟩ =
      get_addresses ⟨[exHostUp] ++ []⟩ ∧
    get_addresses_ip ⟨[exHostUp] ++ exHostDown :: []⟩ =
      get_addresses_ip ⟨[exHostUp] ++ []⟩ := by
  have hd : ∃ s, s ∈ exHostDown.status ∧ s.state = "down" := by decide
  exact ⟨hd, (claim_C1_down_host_not_emitted [exHostUp] [] exHostDown hd).1,
             (claim_C1_down_host_not_emitted [exHostUp] [] exHostDown hd).2⟩

/-- Claim C2: for every report document and every host entry that passes
the liveness check, if no port record with port-id "22" contains a state
record with state "open" (port 22 absent, or only closed/filtered), then
the parser emits no record for that host — in both parser variants. -/
theorem claim_C2_no_open_port22_not_emitted (pre post : List HostElem)
    (h : HostElem)
    (_hup : ¬ ∃ s, s ∈ h.status ∧ s.state = "down")
    (hport : ∀ pb, pb ∈ h.ports → ∀ p, p ∈ pb.ports → p.portid = "22" →
       ∀ st, st ∈ p.states → ¬ st.state = "open") :
    get_addresses ⟨pre ++ h :: post⟩ = get_addresses ⟨pre ++ post⟩ ∧
    get_addresses_ip ⟨pre ++ h :: post⟩ = get_addresses_ip ⟨pre ++ post⟩ := by
  have hp : port22Open h = false := by
    cases hpo : port22Open h with
    | false => rfl
    | true =>
      obtain ⟨pb, hpb, p, hpp, hid, st, hst, hsos⟩ :=
        (port22Open_eq_true_iff h).mp hpo
      exact absurd hsos (hport pb hpb p hpp hid st hst)
  exact ⟨get_addresses_removal pre post h (hostRecord_eq_none_of_port h hp),
         get_addresses_ip_removal pre post h (hostAddrs_eq_nil_of_port h hp)⟩

theorem claim_C2_witness :
    (¬ ∃ s, s ∈ exHostClosed.status ∧ s.state = "down") ∧
    get_addresses ⟨[exHostUp] ++ exHostClosed :: []⟩ =
      get_addresses ⟨[exHostUp] ++ []⟩ := by
  have h1 : ¬ ∃ s, s ∈ exHostClosed.status ∧ s.state = "down" := by decide
  have h2 : ∀ pb, pb ∈ exHostClosed.ports → ∀ p, p ∈ pb.ports →
      p.portid = "22" → ∀ st, st ∈ p.states → ¬ st.state = "open" := by
    decide
  exact ⟨h1,
    (claim_C2_no_open_port22_not_emitted [exHostUp] [] exHostClosed h1 h2).1⟩

/-! ### The hostname actually chosen by the code

The inner `break` in the hostname loop exits only the inner loop over one
`<hostnames>` block; the outer loop keeps running and overwrites `name`,
so the name kept is the first child of the LAST non-empty block. -/

/-- The first hostname of the last non-empty `<hostnames>` block. -/
def chosenNameSpec (h : HostElem) : Option String :=
  match (h.hostnames.filter (fun b => ! b.children.isEmpty)).getLast? with
  | none => none
  | some b => b.children.head?.map HostnameRec.name

theorem pickName_foldl (blocks : List HostnamesBlock) (acc : Option String) :
    blocks.foldl
      (fun acc block =>
        match block.children with
        | [] => acc
        | hn :: _ => some hn.name) acc
    = match (blocks.filter (fun b => ! b.children.isEmpty)).getLast? with
      | none => acc
      | some b => b.children.head?.map HostnameRec.name := by
  induction blocks using List.reverseRecOn with
  | nil => simp
  | append_singleton blocks b ih =>
    rw [List.foldl_append, List.filter_append, ih]
    cases hb : b.children with
    | nil =>
      simp [hb]
    | cons hn rest =>
      simp [hb]

theorem pickName_eq_chosenNameSpec (h : HostElem) :
    pickName h = chosenNameSpec h := by
  exact pickName_foldl h.hostnames none

theorem hostRecord_name (h : HostElem) (n : String) (a : Option String)
    (hrec : hostRecord h = some (n, a)) : pickName h = some n := by
  unfold hostRecord at hrec
  cases hpn : pickName h with
  | none => rw [hpn] at hrec; exact absurd hrec (by simp)
  | some m =>
    rw [hpn] at hrec
    split_ifs at hrec <;> simp_all

/-- A host whose hostname records live in two `<hostnames>` blocks:
"alpha" first in document order, "beta" in the later block. -/
def c3Host : HostElem :=
  { hostnames := [⟨[⟨"alpha"⟩]⟩, ⟨[⟨"beta"⟩]⟩],
    status := [⟨"up"⟩],
    ports := [⟨[⟨"22", [⟨"open"⟩]⟩]⟩],
    address := [⟨"10.0.0.1"⟩] }

/-- A host with a `<hostnames>` block containing no hostname records. -/
def exHostNoName : HostElem :=
  { hostnames := [⟨[]⟩],
    status := [⟨"up"⟩],
    ports := [⟨[⟨"22", [⟨"open"⟩]⟩]⟩],
    address := [⟨"10.0.0.2"⟩] }

/-- Claim C3 counterexample: on a host carrying two `<hostnames>` blocks,
the first hostname in document order is "alpha", yet the parser pairs the
emitted record with "beta" — the first child of the LAST block — so the
"first one in document order" part of the claim is false. -/
theorem claim_C3_counterexample :
    (allHostnames c3Host).head? = some "alpha" ∧
    get_addresses ⟨[c3Host]⟩ = [("beta", some "10.0.0.1")] ∧
    ¬ ("beta" : String) = "alpha" := by
  refine ⟨by decide, by decide, by decide⟩

/-- Claim C3 (amended): a host with no hostname-resolution record yields no
emitted record even if otherwise eligible; when hostname records exist, the
name paired in the emitted record is the first hostname of the last
non-empty `<hostnames>` block (which is the first in document order
whenever the host has at most one such block). -/
theorem claim_C3_no_hostname_skipped (pre post : List HostElem)
    (h : HostElem) :
    ((∀ b, b ∈ h.hostnames → b.children = []) →
       get_addresses ⟨pre ++ h :: post⟩ = get_addresses ⟨pre ++ post⟩) ∧
    (∀ n a, hostRecord h = some (n, a) → chosenNameSpec h = some n) := by
  constructor
  · intro hempty
    have hfil : h.hostnames.filter (fun b => ! b.children.isEmpty) = [] := by
      rw [List.filter_eq_nil_iff]
      intro b hb
      simp [hempty b hb]
    have hpn : pickName h = none := by
      rw [pickName_eq_chosenNameSpec, chosenNameSpec, hfil]
      rfl
    exact get_addresses_removal pre post h (hostRecord_eq_none_of_noname h hpn)
  · intro n a hrec
    rw [← pickName_eq_chosenNameSpec]
    exact hostRecord_name h n a hrec

theorem claim_C3_no_hostname_skipped_witness :
    get_addresses ⟨[] ++ exHostNoName :: []⟩ = get_addresses ⟨[] ++ []⟩ ∧
    chosenNameSpec c3Host = some "beta" := by
  constructor
  · exact (claim_C3_no_hostname_skipped [] [] exHostNoName).1 (by decide)
  · exact (claim_C3_no_hostname_skipped [] [] c3Host).2 "beta"
      (some "10.0.0.1") (by decide)

/-- An eligible host with no `<address>` record at all. -/
def exHostNoAddr : HostElem :=
  { hostnames := [⟨[⟨"delta"⟩]⟩],
    status := [⟨"up"⟩],
    ports := [⟨[⟨"22", [⟨"open"⟩]⟩]⟩],
    address := [] }

/-- A second eligible host resolving to the same name as `exHostUp` but a
different address. -/
def exHostUpDup : HostElem :=
  { hostnames := [⟨[⟨"alpha"⟩]⟩],
    status := [⟨"up"⟩],
    ports := [⟨[⟨"22", [⟨"open"⟩]⟩]⟩],
    address := [⟨"192.168.1.44"⟩] }

/-- Claim C4: every eligible host contributes exactly one record, pairing
the chosen hostname with the first `<address>` record in document order
(`head?` of the address list) — no fan-out to several addresses — and a
host with no address record still yields its record, with an absent
(`none`) address, rather than failing the parse. -/
theorem claim_C4_one_record_first_address (pre post : List HostElem)
    (h : HostElem) (n : String)
    (hn : pickName h = some n) (hne : ¬ n = "")
    (hup : isUp h = true) (hp : port22Open h = true) :
    get_addresses ⟨pre ++ h :: post⟩ =
      get_addresses ⟨pre⟩ ++ [(n, h.address.head?.map AddressRec.addr)]
        ++ get_addresses ⟨post⟩ ∧
    (h.address = [] →
      get_addresses ⟨pre ++ h :: post⟩ =
        get_addresses ⟨pre⟩ ++ [(n, none)] ++ get_addresses ⟨post⟩) := by
  have hfa : firstAddr h = h.address.head?.map AddressRec.addr := by
    unfold firstAddr
    cases h.address <;> rfl
  have hrec : hostRecord h = some (n, h.address.head?.map AddressRec.addr) := by
    unfold hostRecord
    rw [hn]
    simp [hne, hup, hp, hfa]
  have hmain : get_addresses ⟨pre ++ h :: post⟩ =
      get_addresses ⟨pre⟩ ++ [(n, h.address.head?.map AddressRec.addr)]
        ++ get_addresses ⟨post⟩ := by
    simp [get_addresses, List.filterMap_append, List.filterMap_cons, hrec]
  refine ⟨hmain, fun hnil => ?_⟩
  rw [hmain, hnil]
  rfl

theorem claim_C4_witness :
    (exHostUp.address.head?.map AddressRec.addr = some "192.168.1.10") ∧
    get_addresses ⟨[] ++ exHostUp :: []⟩ =
      get_addresses ⟨[]⟩ ++ [("alpha", exHostUp.address.head?.map AddressRec.addr)]
        ++ get_addresses ⟨[]⟩ ∧
    get_addresses ⟨[] ++ exHostNoAddr :: []⟩ =
      get_addresses ⟨[]⟩ ++ [("delta", none)] ++ get_addresses ⟨[]⟩ := by
  refine ⟨by decide, ?_, ?_⟩
  · exact (claim_C4_one_record_first_address [] [] exHostUp "alpha"
      (by decide) (by decide) (by decide) (by decide)).1
  · exact (claim_C4_one_record_first_address [] [] exHostNoAddr "delta"
      (by decide) (by decide) (by decide) (by decide)).2 (by decide)

/-- Claim C5: the parser's output lists eligible-host records in document
order — it distributes over concatenation of host blocks — and performs no
de-duplication: two distinct host blocks yielding the same hostname
produce two separate records. -/
theorem claim_C5_document_order_no_dedup :
    (∀ hs1 hs2 : List HostElem,
       get_addresses ⟨hs1 ++ hs2⟩ =
         get_addresses ⟨hs1⟩ ++ get_addresses ⟨hs2⟩) ∧
    (∀ h h' : HostElem, ∀ n : String, ∀ a a' : Option String,
       hostRecord h = some (n, a) → hostRecord h' = some (n, a') →
       get_addresses ⟨[h, h']⟩ = [(n, a), (n, a')]) := by
  constructor
  · exact get_addresses_append
  · intro h h' n a a' h1 h2
    simp [get_addresses, List.filterMap_cons, h1, h2]

theorem claim_C5_witness :
    get_addresses ⟨[exHostUp, exHostUpDup]⟩ =
      [("alpha", some "192.168.1.10"), ("alpha", some "192.168.1.44")] := by
  exact claim_C5_document_order_no_dedup.2 exHostUp exHostUpDup "alpha"
    (some "192.168.1.10") (some "192.168.1.44") (by decide) (by decide)

/-- Claim C6: when the scanner executable cannot be located on the search
path with execute permission (`shutil.which` returns `None`), constructing
the runner fails with the ToolNotFound-style error, and the spawn trace is
empty: no subprocess is ever started. -/
theorem claim_C6_tool_not_found_before_spawn (hosts : String)
    (runProc : List String → ProcResult)
    (fromstring : String → Except String ReportDoc) :
    scanPipeline none hosts runProc fromstring =
      ([], Except.error (RunnerError.toolNotFound "Nmap binary is missing!")) := by
  rfl

/-- Claim C7: a non-zero subprocess exit surfaces as the ScanFailed-style
error carrying the invoked command — whose final element is the target —
and the captured diagnostic stream, and the result is then independent of
the XML parser (stdout is handed to the parser only on exit 0); on exit 0
the decoded stdout's parse is what is returned. -/
theorem claim_C7_scan_failure_surfaced (r : NmapRunner)
    (runProc : List String → ProcResult)
    (fromstring fromstring2 : String → Except String ReportDoc) :
    (¬ (runProc (buildCommand r)).returncode = 0 →
       runnerIter r runProc fromstring =
         Except.error (RunnerError.scanFailed (buildCommand r)
           (runProc (buildCommand r)).stderr) ∧
       (buildCommand r).getLast? = some r.hosts ∧
       runnerIter r runProc fromstring = runnerIter r runProc fromstring2) ∧
    ((runProc (buildCommand r)).returncode = 0 →
       ∀ root : ReportDoc,
         fromstring (runProc (buildCommand r)).stdout = Except.ok root →
         runnerIter r runProc fromstring = Except.ok (get_addresses root)) := by
  constructor
  · intro hnz
    have hlast : (buildCommand r).getLast? = some r.hosts := by
      unfold buildCommand
      rw [List.getLast?_concat]
    refine ⟨?_, hlast, ?_⟩ <;> simp [runnerIter, hnz]
  · intro hz root hroot
    simp [runnerIter, hz, hroot]

/-- A concrete failing process outcome used to evaluate claim C7. -/
def exProcFail : ProcResult :=
  { returncode := 1, stdout := "", stderr := "network unreachable" }

/-- A concrete successful process outcome used to evaluate claim C7. -/
def exProcOk : ProcResult :=
  { returncode := 0, stdout := "<nmaprun/>", stderr := "" }

theorem claim_C7_witness :
    runnerIter ⟨"/usr/bin/nmap", "10.0.0.0/24"⟩ (fun _ => exProcFail)
        (fun _ => Except.ok ⟨[]⟩) =
      Except.error (RunnerError.scanFailed
        (buildCommand ⟨"/usr/bin/nmap", "10.0.0.0/24"⟩)
        "network unreachable") ∧
    (buildCommand ⟨"/usr/bin/nmap", "10.0.0.0/24"⟩).getLast? =
      some "10.0.0.0/24" ∧
    runnerIter ⟨"/usr/bin/nmap", "10.0.0.0/24"⟩ (fun _ => exProcOk)
        (fun _ => Except.ok ⟨[exHostUp]⟩) =
      Except.ok (get_addresses ⟨[exHostUp]⟩) := by
  have h1 := (claim_C7_scan_failure_surfaced ⟨"/usr/bin/nmap", "10.0.0.0/24"⟩
    (fun _ => exProcFail) (fun _ => Except.ok ⟨[]⟩)
    (fun _ => Except.ok ⟨[]⟩)).1 (by decide)
  have h2 := (claim_C7_scan_failure_surfaced ⟨"/usr/bin/nmap", "10.0.0.0/24"⟩
    (fun _ => exProcOk) (fun _ => Except.ok ⟨[exHostUp]⟩)
    (fun _ => Except.ok ⟨[exHostUp]⟩)).2 (by decide) ⟨[exHostUp]⟩ rfl
  exact ⟨h1.1, h1.2.1, h2⟩

/-- Claim C8: input text that is not well-formed markup makes
`get_addresses` raise the parse error (the `ElementTree.fromstring` call
precedes all host processing), never returning a result list — empty or
partial. -/
theorem claim_C8_malformed_raises (fromstring : String → Except String ReportDoc)
    (xml e : String) (hm : fromstring xml = Except.error e) :
    get_addresses_raw fromstring xml = Except.error e ∧
    ∀ l : List (String × Option String),
      ¬ get_addresses_raw fromstring xml = Except.ok l := by
  constructor
  · simp [get_addresses_raw, hm]
  · intro l
    simp [get_addresses_raw, hm]

theorem claim_C8_witness :
    get_addresses_raw (fun _ => Except.error "not well-formed (invalid token)")
        "<nmaprun><host" =
      Except.error "not well-formed (invalid token)" ∧
    ¬ get_addresses_raw (fun _ => Except.error "not well-formed (invalid token)")
        "<nmaprun><host" = Except.ok [] := by
  have h := claim_C8_malformed_raises
    (fun _ => Except.error "not well-formed (invalid token)")
    "<nmaprun><host" "not well-formed (invalid token)" rfl
  exact ⟨h.1, h.2 []⟩

/-! ### Lemmas about the `get_list` aggregation -/

theorem lookupIp_addAddr_self (hv : List (String × List (Option String)))
    (n : String) (a : Option String) :
    lookupIp (addAddr hv n a) n =
      some (((lookupIp hv n).getD []) ++ [a]) := by
  induction hv with
  | nil => simp [addAddr, lookupIp]
  | cons p rest ih =>
    obtain ⟨m, ips⟩ := p
    by_cases hm : m = n
    · subst hm
      simp [addAddr, lookupIp]
    · simp [addAddr, lookupIp, hm, ih]

theorem lookupIp_addAddr_other (hv : List (String × List (Option String)))
    (n m : String) (a : Option String) (hne : ¬ m = n) :
    lookupIp (addAddr hv n a) m = lookupIp hv m := by
  have hnm : ¬ n = m := fun h => hne h.symm
  induction hv with
  | nil => simp [addAddr, lookupIp, hnm]
  | cons p rest ih =>
    obtain ⟨k, ips⟩ := p
    by_cases hk : k = n
    · subst hk
      simp [addAddr, lookupIp, hnm]
    · by_cases hkm : k = m
      · subst hkm
        simp [addAddr, lookupIp, hk]
      · simp [addAddr, lookupIp, hk, hkm, ih]

theorem lookup_mem_foldl (rs : List (String × Option String))
    (inv : InventoryData) (n : String) (a : Option String)
    (hstart : (∃ ips, lookupIp inv.hostvars n = some ips ∧ a ∈ ips) ∨
      (n, a) ∈ rs) :
    ∃ ips, lookupIp (rs.foldl invStep inv).hostvars n = some ips ∧
      a ∈ ips := by
  induction rs generalizing inv with
  | nil =>
    rcases hstart with h | h
    · simpa using h
    · simp at h
  | cons r rs ih =>
    rw [List.foldl_cons]
    apply ih
    rcases hstart with ⟨ips, hl, ha⟩ | hmem
    · left
      by_cases hr : n = r.1
      · refine ⟨ips ++ [r.2], ?_, List.mem_append_left _ ha⟩
        show lookupIp (addAddr inv.hostvars r.1 r.2) n = some (ips ++ [r.2])
        rw [← hr, lookupIp_addAddr_self, hl]
        rfl
      · refine ⟨ips, ?_, ha⟩
        show lookupIp (addAddr inv.hostvars r.1 r.2) n = some ips
        rw [lookupIp_addAddr_other _ _ _ _ hr, hl]
    · rcases List.mem_cons.mp hmem with heq | hin
      · left
        have h1 : r.1 = n := by rw [← heq]
        have h2 : r.2 = a := by rw [← heq]
        refine ⟨((lookupIp inv.hostvars n).getD []) ++ [a], ?_, by simp⟩
        show lookupIp (addAddr inv.hostvars r.1 r.2) n = _
        rw [h1, h2, lookupIp_addAddr_self]
      · exact Or.inr hin

theorem ungrouped_foldl_nodup (rs : List (String × Option String))
    (inv : InventoryData) (hnd : inv.ungrouped.Nodup) :
    (rs.foldl invStep inv).ungrouped.Nodup := by
  induction rs generalizing inv with
  | nil => simpa using hnd
  | cons r rs ih =>
    rw [List.foldl_cons]
    apply ih
    show (addUngrouped inv.ungrouped r.1).Nodup
    unfold addUngrouped
    by_cases hmem : r.1 ∈ inv.ungrouped
    · simpa [hmem] using hnd
    · simp only [hmem, if_false]
      rw [← List.concat_eq_append]
      exact hnd.concat hmem

theorem ungrouped_foldl_mem (rs : List (String × Option String))
    (inv : InventoryData) (n : String)
    (h : n ∈ inv.ungrouped ∨ ∃ a, (n, a) ∈ rs) :
    n ∈ (rs.foldl invStep inv).ungrouped := by
  induction rs generalizing inv with
  | nil =>
    rcases h with h | ⟨a, ha⟩
    · simpa using h
    · simp at ha
  | cons r rs ih =>
    rw [List.foldl_cons]
    apply ih
    rcases h with h | ⟨a, ha⟩
    · left
      show n ∈ addUngrouped inv.ungrouped r.1
      unfold addUngrouped
      by_cases hm : r.1 ∈ inv.ungrouped <;> simp [hm, h]
    · rcases List.mem_cons.mp ha with heq | hin
      · left
        have h1 : r.1 = n := by rw [← heq]
        show n ∈ addUngrouped inv.ungrouped r.1
        unfold addUngrouped
        rw [h1]
        by_cases hm : n ∈ inv.ungrouped <;> simp [hm]
      · exact Or.inr ⟨a, hin⟩

/-- Claim C9: if the record sequence contains two records with the same
hostname and different addresses, `get_list` folds them into a single
host entry whose `ip` variable holds both addresses, and the hostname
appears exactly once in the `ungrouped` host list. -/
theorem claim_C9_aggregation (l1 l2 l3 : List (String × Option String))
    (n : String) (a1 a2 : Option String) (_hne : ¬ a1 = a2) :
    (get_list (l1 ++ (n, a1) :: l2 ++ (n, a2) :: l3)).ungrouped.count n = 1 ∧
    ∃ ips, lookupIp
        (get_list (l1 ++ (n, a1) :: l2 ++ (n, a2) :: l3)).hostvars n =
      some ips ∧ a1 ∈ ips ∧ a2 ∈ ips := by
  have hm1 : (n, a1) ∈ l1 ++ (n, a1) :: l2 ++ (n, a2) :: l3 := by simp
  have hm2 : (n, a2) ∈ l1 ++ (n, a1) :: l2 ++ (n, a2) :: l3 := by simp
  have hnodup : (get_list (l1 ++ (n, a1) :: l2 ++ (n, a2) :: l3)).ungrouped.Nodup :=
    ungrouped_foldl_nodup _ ⟨[], []⟩ List.nodup_nil
  have hmem : n ∈ (get_list (l1 ++ (n, a1) :: l2 ++ (n, a2) :: l3)).ungrouped :=
    ungrouped_foldl_mem _ ⟨[], []⟩ n (Or.inr ⟨a1, hm1⟩)
  refine ⟨List.count_eq_one_of_mem hnodup hmem, ?_⟩
  obtain ⟨ips1, hl1, ha1⟩ := lookup_mem_foldl _ ⟨[], []⟩ n a1 (Or.inr hm1)
  obtain ⟨ips2, hl2, ha2⟩ := lookup_mem_foldl _ ⟨[], []⟩ n a2 (Or.inr hm2)
  have heq : ips1 = ips2 := Option.some.inj (hl1.symm.trans hl2)
  exact ⟨ips1, hl1, ha1, heq ▸ ha2⟩

theorem claim_C9_witness :
    (¬ (some "192.168.1.10" : Option String) = some "192.168.1.44") ∧
    (get_list [("alpha", some "192.168.1.10"),
      ("alpha", some "192.168.1.44")]).ungrouped.count "alpha" = 1 ∧
    ∃ ips, lookupIp (get_list [("alpha", some "192.168.1.10"),
        ("alpha", some "192.168.1.44")]).hostvars "alpha" =
      some ips ∧ (some "192.168.1.10") ∈ ips ∧ (some "192.168.1.44") ∈ ips := by
  have h := claim_C9_aggregation [] [] [] "alpha" (some "192.168.1.10")
    (some "192.168.1.44") (by decide)
  exact ⟨by decide, h.1, h.2⟩

/-! ### The destructive, reversing iterator -/

theorem popLast_concat {α : Type} (l : List α) (a : α) :
    popLast (l ++ [a]) = some (a, l) := by
  induction l with
  | nil => rfl
  | cons x l ih =>
    cases l with
    | nil => rfl
    | cons y l' =>
      show (match popLast (y :: (l' ++ [a])) with
        | none => none
        | some (z, st) => some (z, x :: st)) = some (a, x :: y :: l')
      rw [show y :: (l' ++ [a]) = (y :: l') ++ [a] from rfl, ih]

theorem drainAux_of_le {α : Type} (fuel : Nat) (st : List α)
    (hle : st.length ≤ fuel) : drainAux fuel st = (st.reverse, []) := by
  induction fuel generalizing st with
  | zero =>
    have hnil : st = [] := List.eq_nil_of_length_eq_zero (Nat.le_zero.mp hle)
    subst hnil
    rfl
  | succ fuel ih =>
    rcases List.eq_nil_or_concat st with rfl | ⟨l, a, rfl⟩
    · rfl
    · rw [List.concat_eq_append] at hle ⊢
      have hlen : l.length ≤ fuel := by
        simp only [List.length_append, List.length_cons, List.length_nil] at hle
        omega
      show (match popLast (l ++ [a]) with
        | none => ([], l ++ [a])
        | some (x, st2) =>
            let rest := drainAux fuel st2
            (x :: rest.1, rest.2)) = ((l ++ [a]).reverse, [])
      rw [popLast_concat]
      simp [ih l hlen]

theorem drainIter_eq {α : Type} (st : List α) :
    drainIter st = (st.reverse, []) :=
  drainAux_of_le st.length st (Nat.le_refl _)

/-- Claim C10: draining the `NmapRunner` iterator (each `__next__` pops
the LAST element of the parsed list) yields the parser's records in
reverse document order, and the drain is destructive: the final iterator
state is empty, and draining it again yields nothing. -/
theorem claim_C10_iterator_reverses (d : ReportDoc) :
    drainIter (get_addresses d) = ((get_addresses d).reverse, []) ∧
    drainIter (drainIter (get_addresses d)).2 = ([], []) := by
  refine ⟨drainIter_eq _, ?_⟩
  simp [drainIter_eq]
